import Mathlib

/-!
Verification development for the feed-rs MediaRSS extension parser
(`src/parser/mediarss.rs`).

The module under verification is the namespace-scoped element dispatcher for
the MediaRSS vocabulary together with its leaf handlers and the "normal play
time" (NPT) duration decoder.  The element-tree walker, the data-model record
types, the small parser utilities and the MIME value object live in files of
the repository that are not part of the given sources; they are modelled from
the specification and marked as such in their doc comments.

Conventions of the embedding:
* Rust `u64`/`u32` values are natural numbers; arithmetic that the source
  performs on `u64` is reduced modulo `2 ^ 64` where the source could wrap
  (release-build semantics; the sites at which a debug build would instead
  panic are noted in comments, and no theorem below depends on the wrapped
  region).
* `std::time::Duration` is modelled as a natural number of nanoseconds; the
  checked addition of two durations panics when the total number of whole
  seconds reaches `2 ^ 64`, exactly as `Duration::add`.
* `f32`/`f64` values are modelled by `FP` (an exact rational, or infinity,
  or NaN) with correctly rounded (round-nearest, ties-to-even) operations.
* Panics are explicit: fallible computations return `Except`.
* The regular expressions `NPT_HHMMSS` and `NPT_SEC` are embedded by their
  search semantics (leftmost match, greedy repetition), specialised to the
  two concrete patterns.  The `\d` class is modelled as the ASCII digits;
  theorems quantifying over arbitrary input restrict attention to inputs
  without non-ASCII decimal digits.
-/

deriving instance DecidableEq for Except

namespace FeedRS

/-- Modelled from the spec: namespace identifiers supplied by the XML tree
walker (`crate::xml::NS`, not among the given sources); only `MediaRSS` is
ever matched by this module, the other variants stand in for the remaining
feed namespaces. -/
inductive NS where
  | MediaRSS | Atom | RSS | Itunes | DublinCore
  deriving DecidableEq

/-- Modelled from the spec: the two `ParseErrorKind` variants raised by this
module (`crate::parser::ParseErrorKind`, not among the given sources). -/
inductive ParseErrorKind where
  | unknownMimeType (v : String)
  | missingContent (n : String)
  deriving DecidableEq

/-- Modelled from the spec: `ParseFeedError`.  Errors raised by this module
are `parse` faults; errors surfaced by the underlying tree walker while
iterating children are collapsed into an opaque `external` variant. -/
inductive PErr where
  | parse (k : ParseErrorKind)
  | external (id : Nat)
  deriving DecidableEq

/-- The ways the source can panic (which aborts the whole process, unlike a
`ParseFeedError`). -/
inductive PanicKind where
  | u64ParseUnwrap
  | durationAddOverflow
  deriving DecidableEq

/-- A computation outcome: either a `ParseFeedError` (`err`) or a Rust panic
(`panic`). -/
inductive Fail where
  | err (e : PErr)
  | panic (p : PanicKind)
  deriving DecidableEq

/-! ### IEEE-754 binary floating point, modelled exactly -/

/-- Modelled from the spec: a Rust `f32`/`f64` value — a finite value carried
exactly as a rational, or infinity, or NaN.  The sign of infinities and of
zero is not tracked (no computation below distinguishes them). -/
inductive FP where
  | finite (q : ℚ) | inf | nan
  deriving DecidableEq

/-!
The rational computations below are written through `mkRat` and the
num/den projections, with comparisons on cross-multiplied integers: these
reduce inside the kernel, while the `Rat` field operations (`Rat.mul`,
`Rat.inv`, ...) do not, so this keeps every concrete evaluation decidable
by `decide`.
-/

/-- Rational multiplication, kernel-reducible. -/
def qmul (a b : ℚ) : ℚ := mkRat (a.num * b.num) (a.den * b.den)

/-- Rational division, kernel-reducible (division by zero yields zero, as
for `Rat.div`; never exercised below). -/
def qdiv (a b : ℚ) : ℚ :=
  if b.num < 0 then mkRat (-(a.num * (b.den : ℤ))) (a.den * b.num.natAbs)
  else mkRat (a.num * (b.den : ℤ)) (a.den * b.num.natAbs)

/-- Rational strict comparison by cross multiplication, kernel-reducible. -/
def qltB (a b : ℚ) : Bool := a.num * (b.den : ℤ) < b.num * (a.den : ℤ)

/-- Rational comparison by cross multiplication, kernel-reducible. -/
def qleB (a b : ℚ) : Bool := a.num * (b.den : ℤ) ≤ b.num * (a.den : ℤ)

/-- `m * 2 ^ step` as a rational, for a natural mantissa and an integer
exponent. -/
def scaledPow2 (m : ℕ) (step : ℤ) : ℚ :=
  if 0 ≤ step then mkRat ((m * 2 ^ step.toNat : ℕ) : ℤ) 1
  else mkRat (m : ℤ) (2 ^ (-step).toNat)

/-- Round a nonnegative rational to the nearest natural, ties to even (the
IEEE-754 default rounding); every use below is on a nonnegative value. -/
def rnEvenPos (x : ℚ) : ℕ :=
  let fl := x.num.toNat / x.den
  let rem := x.num.toNat % x.den
  if 2 * rem < x.den then fl
  else if x.den < 2 * rem then fl + 1
  else if fl % 2 = 0 then fl else fl + 1

/-- The ulp exponent for rounding `a` (with `0 < a < 2 ^ ovf`): the smallest
`step ≥ minStep` with `a < 2 ^ P * 2 ^ step`, i.e.
`max (⌊log2 a⌋ - (P - 1)) minStep`, found by a fuel-bounded upward search
(the fuel chosen by `roundFP` always suffices because `a < 2 ^ ovf`). -/
def fitStep (P : ℕ) : ℕ → ℤ → ℚ → ℤ
  | 0, step, _ => step
  | fuel + 1, step, a =>
    if qltB a (scaledPow2 (2 ^ P) step) then step else fitStep P fuel (step + 1) a

/-- Round a rational to a binary floating point format: `P` bits of
precision, smallest ulp exponent `minStep` (subnormal range), overflow to
infinity at `2 ^ ovf`. -/
def roundFP (P : ℕ) (minStep ovf : ℤ) (q : ℚ) : FP :=
  if q.num = 0 then .finite 0
  else
    let a : ℚ := mkRat (q.num.natAbs : ℤ) q.den
    if qleB (scaledPow2 1 ovf) a then .inf
    else
      let step := fitStep P ((ovf - minStep).toNat + 1) minStep a
      let m := rnEvenPos (qdiv a (scaledPow2 1 step))
      let v := scaledPow2 m step
      if qleB (scaledPow2 1 ovf) v then .inf
      else .finite (if q.num < 0 then mkRat (-v.num) v.den else v)

/-- Correctly rounded `f32` value of a rational. -/
def roundF32 (q : ℚ) : FP := roundFP 24 (-149) 128 q

/-- Correctly rounded `f64` value of a rational. -/
def roundF64 (q : ℚ) : FP := roundFP 53 (-1074) 1024 q

/-- `f32` multiplication. -/
def mulF32 : FP → FP → FP
  | .nan, _ => .nan
  | _, .nan => .nan
  | .inf, .finite q => if q.num = 0 then .nan else .inf
  | .finite q, .inf => if q.num = 0 then .nan else .inf
  | .inf, .inf => .inf
  | .finite a, .finite b => roundF32 (qmul a b)

/-- `f32` division. -/
def divF32 : FP → FP → FP
  | .nan, _ => .nan
  | _, .nan => .nan
  | .inf, .inf => .nan
  | .inf, .finite _ => .inf
  | .finite _, .inf => .finite 0
  | .finite a, .finite b =>
    if b.num = 0 then (if a.num = 0 then .nan else .inf) else roundF32 (qdiv a b)

/-- Rust `as u64` cast of a float: NaN to `0`, saturating at the bounds,
truncation toward zero. -/
def fpToU64 : FP → ℕ
  | .nan => 0
  | .inf => 2 ^ 64 - 1
  | .finite q => if q.num ≤ 0 then 0 else min (2 ^ 64 - 1) (q.num.toNat / q.den)

/-- `f32::powi` with a nonnegative exponent, modelled as iterated correctly
rounded multiplication.  (The precision of `powi` is unspecified in Rust; for
every exponent used by a theorem below — 1, 2, 3 and 39 — any sequence of
individually rounded multiplications yields the same result: the value is
exact below `10 ^ 11` and overflows to infinity at `10 ^ 39`.) -/
def powiF32 (b : FP) (n : ℕ) : FP :=
  (List.range n).foldl (fun acc _ => mulF32 acc b) (.finite 1)

/-! ### Digit strings and integer parsing -/

/-- Numeric value of an ASCII digit. -/
def digitVal (c : Char) : ℕ := c.toNat - '0'.toNat

/-- Numeric value of an ASCII digit string. -/
def natOfDigits (ds : List Char) : ℕ :=
  ds.foldl (fun acc c => 10 * acc + digitVal c) 0

/-- `str::parse::<u64>().unwrap()` applied to a regex capture (a nonempty
ASCII digit string): yields the numeric value, except that a value exceeding
`u64::MAX` makes the parse fail and the source panic on the `unwrap`. -/
def parseU64unwrap (ds : List Char) : Except PanicKind ℕ :=
  if natOfDigits ds < 2 ^ 64 then .ok (natOfDigits ds) else .error .u64ParseUnwrap

/-- `str::parse::<f32>().unwrap()` applied to a regex capture (a nonempty
ASCII digit string): never fails; correctly rounded, saturating to infinity
above the `f32` range. -/
def parseF32digits (ds : List Char) : FP := roundF32 (natOfDigits ds)

/-! ### The NPT decoder (`parse_npt`, lines 238-307 of the source) -/

/-- The named captures of `NPT_HHMMSS`:
`(?P<h>\d+):(?P<m>\d{2}):(?P<s>\d{2})(\.(?P<f>\d+))?`. -/
structure HmsCaps where
  h : List Char
  m : List Char
  s : List Char
  f : Option (List Char)
  deriving DecidableEq

/-- The named captures of `NPT_SEC`: `(?P<s>\d+)(\.(?P<f>\d+))?`. -/
structure SecCaps where
  s : List Char
  f : Option (List Char)
  deriving DecidableEq

/-- The optional fraction group `(\.(?P<f>\d+))?`: participates exactly when
the remaining text starts with a dot followed by at least one digit, and then
captures the maximal digit run (greedy `\d+`). -/
def fracAt : List Char → Option (List Char)
  | '.' :: rest =>
    let f := rest.takeWhile Char.isDigit
    if f = [] then none else some f
  | _ => none

/-- Attempt to match `NPT_HHMMSS` at the head of the text.  Greedy `\d+`
followed by a mandatory `:` means the hours group is exactly the maximal
leading digit run (a shorter run is necessarily followed by a digit, not by
`:`, so backtracking cannot succeed). -/
def npt_hhmmss_match_at (cs : List Char) : Option HmsCaps :=
  let h := cs.takeWhile Char.isDigit
  if h = [] then none
  else
    match cs.dropWhile Char.isDigit with
    | ':' :: m1 :: m2 :: ':' :: s1 :: s2 :: rest =>
      if m1.isDigit && m2.isDigit && s1.isDigit && s2.isDigit then
        some ⟨h, [m1, m2], [s1, s2], fracAt rest⟩
      else none
    | _ => none

/-- `NPT_HHMMSS.captures(text)`: leftmost match — try every start offset in
order. -/
def npt_hhmmss_captures : List Char → Option HmsCaps
  | [] => none
  | c :: rest =>
    match npt_hhmmss_match_at (c :: rest) with
    | some caps => some caps
    | none => npt_hhmmss_captures rest

/-- Attempt to match `NPT_SEC` at the head of the text: the seconds group is
the maximal leading digit run, the fraction group is optional. -/
def npt_sec_match_at (cs : List Char) : Option SecCaps :=
  let s := cs.takeWhile Char.isDigit
  if s = [] then none
  else some ⟨s, fracAt (cs.dropWhile Char.isDigit)⟩

/-- `NPT_SEC.captures(text)`: leftmost match. -/
def npt_sec_captures : List Char → Option SecCaps
  | [] => none
  | c :: rest =>
    match npt_sec_match_at (c :: rest) with
    | some caps => some caps
    | none => npt_sec_captures rest

/-- `Duration::add` on the nanosecond model: panics ("overflow when adding
durations") when the sum reaches `2 ^ 64` whole seconds. -/
def durAdd (a b : ℕ) : Except PanicKind ℕ :=
  if (a + b) / 1000000000 < 2 ^ 64 then .ok (a + b) else .error .durationAddOverflow

/-- `parse_npt_add_frac_sec` (source lines 297-307): when the `f` capture is
present, `denom = 10f32.powi(len)`, `num = f.parse::<f32>().unwrap()`,
`millis = (1000f32 * (num / denom)) as u64`, and the result is
`duration.add(Duration::from_millis(millis))`; otherwise the duration is
returned unchanged. -/
def parse_npt_add_frac_sec (duration : ℕ) (f : Option (List Char)) :
    Except PanicKind ℕ :=
  match f with
  | some frac =>
    let denom := powiF32 (.finite 10) frac.length
    let num := parseF32digits frac
    let millis := fpToU64 (mulF32 (.finite 1000) (divF32 num denom))
    durAdd duration (millis * 1000000)
  | none => .ok duration

/-- `parse_npt` (source lines 253-294) on a character list: try `NPT_HHMMSS`
first, then `NPT_SEC`, else no value.  When `NPT_HHMMSS` matches, all three
of its mandatory groups necessarily participated, so the source's fall-through
arm for a partial capture is dead code and the hours/minutes/seconds are
parsed (each `parse::<u64>().unwrap()` may panic) with the accumulation
`seconds += m * 60; seconds += h * 3600` performed in `u64` (reduced mod
`2 ^ 64`; a debug build would panic at that site instead of wrapping, and no
theorem below depends on the wrapped region). -/
def parse_npt (text : List Char) : Except PanicKind (Option ℕ) :=
  match npt_hhmmss_captures text with
  | some caps =>
    match parseU64unwrap caps.s with
    | .error p => .error p
    | .ok s =>
      match parseU64unwrap caps.m with
      | .error p => .error p
      | .ok m =>
        match parseU64unwrap caps.h with
        | .error p => .error p
        | .ok h =>
          let seconds := (s + m * 60 % 2 ^ 64) % 2 ^ 64
          let seconds := (seconds + h * 3600 % 2 ^ 64) % 2 ^ 64
          match parse_npt_add_frac_sec (seconds * 1000000000) caps.f with
          | .error p => .error p
          | .ok d => .ok (some d)
  | none =>
    match npt_sec_captures text with
    | some caps =>
      match parseU64unwrap caps.s with
      | .error p => .error p
      | .ok s =>
        match parse_npt_add_frac_sec (s * 1000000000) caps.f with
        | .error p => .error p
        | .ok d => .ok (some d)
    | none => .ok none

/-- `parse_npt` on a Rust string. -/
def parse_npt_s (s : String) : Except PanicKind (Option ℕ) := parse_npt s.data

/-! ### Attribute-value parsers used by the handlers -/

/-- Modelled from the spec: `str::parse::<u64>()` as used for best-effort
numeric attributes — an optional leading `+`, then a nonempty ASCII digit
string whose value fits in `u64`; anything else is a parse failure. -/
def parseU64 (s : String) : Option ℕ :=
  let ds := match s.data with
    | '+' :: rest => rest
    | other => other
  if ds ≠ [] && ds.all Char.isDigit && natOfDigits ds < 2 ^ 64 then
    some (natOfDigits ds)
  else none

/-- Modelled from the spec: `str::parse::<u32>()`. -/
def parseU32 (s : String) : Option ℕ :=
  let ds := match s.data with
    | '+' :: rest => rest
    | other => other
  if ds ≠ [] && ds.all Char.isDigit && natOfDigits ds < 2 ^ 32 then
    some (natOfDigits ds)
  else none

/-- Lower-case a latin letter (for the case-insensitive float keywords). -/
def lowerChar (c : Char) : Char :=
  if 'A' ≤ c ∧ c ≤ 'Z' then Char.ofNat (c.toNat + 32) else c

/-- Modelled from the spec: `str::parse::<f64>()` (Rust standard library,
assumed provided) — optional sign, then `inf`/`infinity`/`nan`
(case-insensitive) or a decimal mantissa `d+[.d*] | .d+` with an optional
`e`/`E` exponent; the numeric value is correctly rounded to binary64. -/
def parseF64 (s : String) : Option FP :=
  let (neg, body) := match s.data with
    | '-' :: rest => (true, rest)
    | '+' :: rest => (false, rest)
    | other => (false, other)
  let lower := body.map lowerChar
  if lower = "inf".data ∨ lower = "infinity".data then some .inf
  else if lower = "nan".data then some .nan
  else
    let intPart := body.takeWhile Char.isDigit
    let afterInt := body.dropWhile Char.isDigit
    let fracRes : Option (List Char × List Char) := match afterInt with
      | '.' :: rest => some (rest.takeWhile Char.isDigit, rest.dropWhile Char.isDigit)
      | other => some ([], other)
    match fracRes with
    | none => none
    | some (fracPart, afterFrac) =>
      if intPart = [] ∧ fracPart = [] then none
      else
        let expRes : Option ℤ := match afterFrac with
          | [] => some 0
          | 'e' :: rest => parseExpDigits rest
          | 'E' :: rest => parseExpDigits rest
          | _ => none
        match expRes with
        | none => none
        | some ex =>
          let mant : ℚ := mkRat
            ((natOfDigits intPart * 10 ^ fracPart.length + natOfDigits fracPart : ℕ) : ℤ)
            (10 ^ fracPart.length)
          let mag : ℚ :=
            if 0 ≤ ex then qmul mant (mkRat ((10 ^ ex.toNat : ℕ) : ℤ) 1)
            else qdiv mant (mkRat ((10 ^ (-ex).toNat : ℕ) : ℤ) 1)
          some (roundF64 (if neg then mkRat (-mag.num) mag.den else mag))
where
  /-- The exponent: optional sign then a nonempty digit string. -/
  parseExpDigits (cs : List Char) : Option ℤ :=
    let (eneg, ds) := match cs with
      | '-' :: rest => (true, rest)
      | '+' :: rest => (false, rest)
      | other => (false, other)
    if ds ≠ [] && ds.all Char.isDigit then
      some (if eneg then -(natOfDigits ds : ℤ) else (natOfDigits ds : ℤ))
    else none

/-- Modelled from the spec: MIME-type value-object parsing (the `mime` crate,
assumed provided) — a `type/subtype` shape with nonempty parts; the parsed
value is kept as the string itself.  No claim depends on its details: it is
only used for the best-effort `type` attribute of `media:content`. -/
def parseMime (s : String) : Option String :=
  match s.data.splitOn '/' with
  | [t, sub] => if t ≠ [] ∧ sub ≠ [] then some s else none
  | _ => none

/-! ### The data model (`crate::model`, modelled from the spec) -/

/-- Modelled from the spec: `Text` — content plus a MIME content type
(`text/plain` by default). -/
structure Text where
  content : String
  content_type : String := "text/plain"
  deriving DecidableEq

/-- Modelled from the spec: `Image` — a URL with optional width/height. -/
structure Image where
  url : String
  width : Option ℕ := none
  height : Option ℕ := none
  deriving DecidableEq

/-- Modelled from the spec: `MediaThumbnail` — an image plus an optional NPT
time (duration in nanoseconds). -/
structure MediaThumbnail where
  image : Image
  time : Option ℕ := none
  deriving DecidableEq

/-- Modelled from the spec: `MediaContent` — url, content type, width,
height, all optional; stored only when `url` is present. -/
structure MediaContent where
  url : Option String := none
  content_type : Option String := none
  width : Option ℕ := none
  height : Option ℕ := none
  deriving DecidableEq

/-- `MediaContent::new()`. -/
def MediaContent.new : MediaContent := {}

/-- Modelled from the spec: `MediaCommunity` — star rating and statistics,
every field best-effort with the listed defaults (stars_avg `0.0`, counters
`0`). -/
structure MediaCommunity where
  stars_avg : FP := .finite 0
  stars_count : ℕ := 0
  stars_min : ℕ := 0
  stars_max : ℕ := 0
  stats_views : ℕ := 0
  stats_favorites : ℕ := 0
  deriving DecidableEq

/-- `MediaCommunity::new()`. -/
def MediaCommunity.new : MediaCommunity := {}

/-- Modelled from the spec: `MediaCredit` — a required text. -/
structure MediaCredit where
  text : String
  deriving DecidableEq

/-- Modelled from the spec: `MediaText` — a required `Text` plus optional
start/end NPT times. -/
structure MediaText where
  text : Text
  start_time : Option ℕ := none
  end_time : Option ℕ := none
  deriving DecidableEq

/-- Modelled from the spec: `MediaObject`, the accumulator — every field at
its default on `MediaObject::new()`. -/
structure MediaObject where
  title : Option Text := none
  content : Option MediaContent := none
  thumbnails : List MediaThumbnail := []
  description : Option Text := none
  community : Option MediaCommunity := none
  credits : List MediaCredit := []
  texts : List MediaText := []
  deriving DecidableEq

/-- `MediaObject::new()`. -/
def MediaObject.new : MediaObject := {}

/-! ### The element-tree walker interface (`crate::xml`, modelled) -/

/-- An XML attribute (name/value pair). -/
structure Attr where
  name : String
  value : String
  deriving DecidableEq

/-- Modelled from the spec: the `Element` abstraction supplied by the tree
walker — namespace and tag, the ordered attribute list, the lazy fallible
child sequence (each item either a decoded child element or a walker error),
and the two text-extraction operations (whole-subtree serialised content and
flattened text), each fallible. -/
inductive Element where
  | mk (ns : Option NS) (tag : String) (attributes : List Attr)
      (children : List (Except PErr Element))
      (children_as_string : Except PErr (Option String))
      (child_as_text : Except PErr (Option String))

/-- The element's namespace. -/
def Element.ns : Element → Option NS
  | .mk n _ _ _ _ _ => n

/-- The element's tag. -/
def Element.tag : Element → String
  | .mk _ t _ _ _ _ => t

/-- The element's ordered attributes. -/
def Element.attributes : Element → List Attr
  | .mk _ _ a _ _ _ => a

/-- The element's fallible child sequence. -/
def Element.children : Element → List (Except PErr Element)
  | .mk _ _ _ c _ _ => c

/-- `Element::children_as_string()`: the serialised child content. -/
def Element.children_as_string : Element → Except PErr (Option String)
  | .mk _ _ _ _ s _ => s

/-- `Element::child_as_text()`: the flattened child text. -/
def Element.child_as_text : Element → Except PErr (Option String)
  | .mk _ _ _ _ _ t => t

/-- `Element::ns_and_tag()`. -/
def Element.ns_and_tag (e : Element) : Option NS × String := (e.ns, e.tag)

/-! ### Leaf handlers -/

/-- The `type` attribute resolution of `handle_text` (source line 216): the
value of the first attribute named `type`, defaulting to `plain` when
absent. -/
def typeAttrOf (e : Element) : String :=
  match e.attributes.find? (fun a => a.name == "type") with
  | some a => a.value
  | none => "plain"

/-- `handle_text` (source lines 214-235), used for `media:title` and
`media:description`: read the first `type` attribute defaulting to `plain`;
a value other than `plain`/`html` is the hard `UnknownMimeType` fault (the
Rust `match` on the string is embedded as the equivalent equality chain);
then extract the serialised child content — a walker failure propagates,
absent content is the hard `MissingContent("text")` fault, and otherwise the
text record carries the resolved MIME type. -/
def handle_text (e : Element) : Except Fail (Option Text) :=
  let type_attr := typeAttrOf e
  let mimeRes : Except Fail String :=
    if type_attr = "plain" then .ok "text/plain"
    else if type_attr = "html" then .ok "text/html"
    else .error (.err (.parse (.unknownMimeType type_attr)))
  match mimeRes with
  | .error f => .error f
  | .ok mime =>
    match e.children_as_string with
    | .error pe => .error (.err pe)
    | .ok (some content) => .ok (some { content := content, content_type := mime })
    | .ok none => .error (.err (.parse (.missingContent "text")))

/-- `handle_media_credit` (source lines 133-136): the flattened child text,
wrapped in a credit record when present. -/
def handle_media_credit (e : Element) : Except Fail (Option MediaCredit) :=
  match e.child_as_text with
  | .error pe => .error (.err pe)
  | .ok o => .ok (o.map (fun t => { text := t }))

/-- Local mutable state of `handle_media_text`'s attribute loop. -/
structure MediaTextState where
  start_time : Option ℕ := none
  end_time : Option ℕ := none
  mime : Option String := none
  deriving DecidableEq

/-- The attribute loop of `handle_media_text` (source lines 144-157):
`start`/`end` via the NPT decoder (a decode with no value leaves the bound
unset; an NPT panic aborts), `type` restricted to `plain`/`html` (anything
else resets the MIME to `None`, which later defaults to `text/plain`). -/
def media_text_attr_loop : List Attr → MediaTextState → Except Fail MediaTextState
  | [], st => .ok st
  | a :: rest, st =>
    match a.name with
    | "start" =>
      match parse_npt_s a.value with
      | .error p => .error (.panic p)
      | .ok (some npt) => media_text_attr_loop rest { st with start_time := some npt }
      | .ok none => media_text_attr_loop rest st
    | "end" =>
      match parse_npt_s a.value with
      | .error p => .error (.panic p)
      | .ok (some npt) => media_text_attr_loop rest { st with end_time := some npt }
      | .ok none => media_text_attr_loop rest st
    | "type" =>
      media_text_attr_loop rest { st with mime := match a.value with
        | "plain" => some "text/plain"
        | "html" => some "text/html"
        | _ => none }
    | _ => media_text_attr_loop rest st

/-- `handle_media_text` (source lines 139-175): run the attribute loop, then
require the flattened child text for a record to be produced. -/
def handle_media_text (e : Element) : Except Fail (Option MediaText) :=
  match media_text_attr_loop e.attributes {} with
  | .error f => .error f
  | .ok st =>
    match e.child_as_text with
    | .error pe => .error (.err pe)
    | .ok o => .ok (o.map (fun t =>
        { text := { content := t, content_type := st.mime.getD "text/plain" },
          start_time := st.start_time, end_time := st.end_time }))

/-- Local mutable state of `handle_media_thumbnail`'s attribute loop. -/
structure ThumbState where
  url : Option String := none
  width : Option ℕ := none
  height : Option ℕ := none
  time : Option ℕ := none
  deriving DecidableEq

/-- The attribute loop of `handle_media_thumbnail` (source lines 184-196):
collect `url`, the best-effort `width`/`height`, and `time` via the NPT
decoder (no value leaves `time` unset; an NPT panic aborts). -/
def thumbnail_attr_loop : List Attr → ThumbState → Except Fail ThumbState
  | [], st => .ok st
  | a :: rest, st =>
    match a.name with
    | "url" => thumbnail_attr_loop rest { st with url := some a.value }
    | "width" =>
      match parseU32 a.value with
      | some v => thumbnail_attr_loop rest { st with width := some v }
      | none => thumbnail_attr_loop rest st
    | "height" =>
      match parseU32 a.value with
      | some v => thumbnail_attr_loop rest { st with height := some v }
      | none => thumbnail_attr_loop rest st
    | "time" =>
      match parse_npt_s a.value with
      | .error p => .error (.panic p)
      | .ok (some npt) => thumbnail_attr_loop rest { st with time := some npt }
      | .ok none => thumbnail_attr_loop rest st
    | _ => thumbnail_attr_loop rest st

/-- `handle_media_thumbnail` (source lines 178-211): run the attribute loop;
a record is produced exactly when `url` was present. -/
def handle_media_thumbnail (e : Element) : Except Fail (Option MediaThumbnail) :=
  match thumbnail_attr_loop e.attributes {} with
  | .error f => .error f
  | .ok st =>
    match st.url with
    | some url =>
      .ok (some { image := { url := url, width := st.width, height := st.height },
                  time := st.time })
    | none => .ok none

/-- The `starRating` attribute loop of `handle_media_community` (source lines
63-75): `average` as `f64`, `count`/`min`/`max` as `u64`, each best-effort. -/
def starRatingFold (c : MediaCommunity) (attrs : List Attr) : MediaCommunity :=
  attrs.foldl
    (fun c a =>
      match a.name with
      | "average" =>
        match parseF64 a.value with
        | some v => { c with stars_avg := v }
        | none => c
      | "count" =>
        match parseU64 a.value with
        | some v => { c with stars_count := v }
        | none => c
      | "min" =>
        match parseU64 a.value with
        | some v => { c with stars_min := v }
        | none => c
      | "max" =>
        match parseU64 a.value with
        | some v => { c with stars_max := v }
        | none => c
      | _ => c)
    c

/-- The `statistics` attribute loop of `handle_media_community` (source lines
76-85): `views`/`favorites` as `u64`, best-effort. -/
def statisticsFold (c : MediaCommunity) (attrs : List Attr) : MediaCommunity :=
  attrs.foldl
    (fun c a =>
      match a.name with
      | "views" =>
        match parseU64 a.value with
        | some v => { c with stats_views := v }
        | none => c
      | "favorites" =>
        match parseU64 a.value with
        | some v => { c with stats_favorites := v }
        | none => c
      | _ => c)
    c

/-- The child loop of `handle_media_community` (source lines 60-91): a
walker error on any child propagates as a hard fault; recognised
`starRating`/`statistics` children update the record, everything else is
skipped. -/
def community_children_loop :
    List (Except PErr Element) → MediaCommunity → Except Fail MediaCommunity
  | [], c => .ok c
  | .error pe :: _, _ => .error (.err pe)
  | .ok ch :: rest, c =>
    match ch.ns_and_tag with
    | (some NS.MediaRSS, "starRating") =>
      community_children_loop rest (starRatingFold c ch.attributes)
    | (some NS.MediaRSS, "statistics") =>
      community_children_loop rest (statisticsFold c ch.attributes)
    | _ => community_children_loop rest c

/-- `handle_media_community` (source lines 57-94): start from the
all-default record, run the child loop, and always return a populated
record. -/
def handle_media_community (e : Element) : Except Fail (Option MediaCommunity) :=
  match community_children_loop e.children MediaCommunity.new with
  | .error f => .error f
  | .ok c => .ok (some c)

/-- One step of the attribute loop of `handle_media_content` (source lines
100-112): `url` taken verbatim, `type` through MIME parsing,
`width`/`height` through `u32` parsing, each best-effort, unknown attributes
ignored. -/
def media_content_attr_step (c : MediaContent) (a : Attr) : MediaContent :=
  match a.name with
  | "url" => { c with url := some a.value }
  | "type" =>
    match parseMime a.value with
    | some v => { c with content_type := some v }
    | none => c
  | "width" =>
    match parseU32 a.value with
    | some v => { c with width := some v }
    | none => c
  | "height" =>
    match parseU32 a.value with
    | some v => { c with height := some v }
    | none => c
  | _ => c

/-- The attribute loop of `handle_media_content`, from `MediaContent::new()`. -/
def media_content_attrs (attrs : List Attr) : MediaContent :=
  attrs.foldl media_content_attr_step MediaContent.new

/-! ### The dispatcher and the recursive content handler -/

mutual

/-- `handle_media_element` (source lines 33-54): route one element by its
(namespace, tag) pair to the matching handler, mutating the shared
accumulator; any other pair is a no-op. -/
def handle_media_element (e : Element) (m : MediaObject) : Except Fail MediaObject :=
  match e.ns_and_tag with
  | (some NS.MediaRSS, "title") =>
    match handle_text e with
    | .error f => .error f
    | .ok t => .ok { m with title := t }
  | (some NS.MediaRSS, "content") => handle_media_content e m
  | (some NS.MediaRSS, "thumbnail") =>
    match handle_media_thumbnail e with
    | .error f => .error f
    | .ok (some th) => .ok { m with thumbnails := m.thumbnails ++ [th] }
    | .ok none => .ok m
  | (some NS.MediaRSS, "description") =>
    match handle_text e with
    | .error f => .error f
    | .ok t => .ok { m with description := t }
  | (some NS.MediaRSS, "community") =>
    match handle_media_community e with
    | .error f => .error f
    | .ok c => .ok { m with community := c }
  | (some NS.MediaRSS, "credit") =>
    match handle_media_credit e with
    | .error f => .error f
    | .ok (some cr) => .ok { m with credits := m.credits ++ [cr] }
    | .ok none => .ok m
  | (some NS.MediaRSS, "text") =>
    match handle_media_text e with
    | .error f => .error f
    | .ok (some tx) => .ok { m with texts := m.texts ++ [tx] }
    | .ok none => .ok m
  | _ => .ok m

/-- `handle_media_content` (source lines 97-130): build the content record
from the attributes; if `url` was found, first feed the MediaRSS children
back through the dispatcher against the same accumulator and then commit the
record to the accumulator's `content` field; otherwise leave the accumulator
untouched. -/
def handle_media_content (e : Element) (m : MediaObject) : Except Fail MediaObject :=
  match e with
  | .mk _ _ attrs children _ _ =>
    let content := media_content_attrs attrs
    if content.url.isSome then
      match media_children_into children m with
      | .error f => .error f
      | .ok m2 => .ok { m2 with content := some content }
    else .ok m

/-- The child loop shared verbatim by `handle_media_group` (source lines
20-25) and `handle_media_content` (source lines 118-123): a walker error on
a child propagates; children in the MediaRSS namespace go through the
dispatcher against the running accumulator; all other children are
skipped. -/
def media_children_into (cs : List (Except PErr Element)) (m : MediaObject) :
    Except Fail MediaObject :=
  match cs with
  | [] => .ok m
  | .error pe :: _ => .error (.err pe)
  | .ok c :: rest =>
    if c.ns = some NS.MediaRSS then
      match handle_media_element c m with
      | .error f => .error f
      | .ok m2 => media_children_into rest m2
    else media_children_into rest m

end

/-- `handle_media_group` (source lines 17-28): run the child loop on a fresh
accumulator; the populated accumulator is always returned (never "no
object"). -/
def handle_media_group (e : Element) : Except Fail (Option MediaObject) :=
  match media_children_into e.children MediaObject.new with
  | .error f => .error f
  | .ok m => .ok (some m)

/-! ### Spec-side grammar predicates

The claims describe the two NPT grammars as productions over the whole input
token.  The following two checkers are written from the claims' words (not
from the source) so that the claims can be stated: a whole-string
decomposition into grammar 1 (`H:MM:SS[.fraction]`) forces the hours group to
be the maximal leading digit run, and likewise for the seconds group of
grammar 2 (`S[.fraction]`), so deciding the grammars this way is exact. -/

/-- Whole-string match of the claims' grammar 1: hours of one or more digits,
a colon, exactly two minute digits, a colon, exactly two second digits, an
optional dot-prefixed fraction of one or more digits. -/
def isNptHHMMSS (cs : List Char) : Bool :=
  decide (cs.takeWhile Char.isDigit ≠ []) &&
  match cs.dropWhile Char.isDigit with
  | ':' :: m1 :: m2 :: ':' :: s1 :: s2 :: rest =>
    m1.isDigit && m2.isDigit && s1.isDigit && s2.isDigit &&
    (match rest with
     | [] => true
     | '.' :: ds => decide (ds ≠ []) && ds.all Char.isDigit
     | _ => false)
  | _ => false

/-- Whole-string match of the claims' grammar 2: one or more second digits
with an optional dot-prefixed fraction of one or more digits. -/
def isNptSEC (cs : List Char) : Bool :=
  decide (cs.takeWhile Char.isDigit ≠ []) &&
  match cs.dropWhile Char.isDigit with
  | [] => true
  | '.' :: ds => decide (ds ≠ []) && ds.all Char.isDigit
  | _ => false

/-! ### Claim theorems -/

set_option maxRecDepth 8000

/-- Claim C1, counterexample: the input `"a5"` matches neither of the claim's
two grammars as a whole string, yet `parse_npt` returns a value (5 seconds):
the source regexes are unanchored — `captures` searches for a match anywhere
in the input — and `NPT_SEC` finds the embedded digit `5`. -/
theorem c1_counterexample :
    isNptHHMMSS "a5".data = false ∧ isNptSEC "a5".data = false ∧
    parse_npt "a5".data = .ok (some 5000000000) :=
  ⟨by decide, by decide, by decide⟩

/-- A character list without digits admits no `NPT_HHMMSS` match at any
offset. -/
lemma hhmmss_captures_of_no_digit {cs : List Char}
    (h : ∀ c ∈ cs, c.isDigit = false) : npt_hhmmss_captures cs = none := by
  induction cs with
  | nil => rfl
  | cons c rest ih =>
    have hc : c.isDigit = false := h c (List.mem_cons_self c rest)
    have hmatch : npt_hhmmss_match_at (c :: rest) = none := by
      simp [npt_hhmmss_match_at, List.takeWhile_cons, hc]
    simp [npt_hhmmss_captures, hmatch,
      ih (fun x hx => h x (List.mem_cons_of_mem c hx))]

/-- A character list without digits admits no `NPT_SEC` match at any
offset. -/
lemma sec_captures_of_no_digit {cs : List Char}
    (h : ∀ c ∈ cs, c.isDigit = false) : npt_sec_captures cs = none := by
  induction cs with
  | nil => rfl
  | cons c rest ih =>
    have hc : c.isDigit = false := h c (List.mem_cons_self c rest)
    have hmatch : npt_sec_match_at (c :: rest) = none := by
      simp [npt_sec_match_at, List.takeWhile_cons, hc]
    simp [npt_sec_captures, hmatch,
      ih (fun x hx => h x (List.mem_cons_of_mem c hx))]

/-- A whole-string grammar-1 match contains a colon. -/
lemma colon_mem_of_hhmmss {cs : List Char} (h : isNptHHMMSS cs = true) :
    ':' ∈ cs := by
  unfold isNptHHMMSS at h
  rw [Bool.and_eq_true] at h
  split at h
  case _ heq =>
    have : ':' ∈ cs.dropWhile Char.isDigit := by rw [heq]; exact List.mem_cons_self _ _
    have hsplit := List.takeWhile_append_dropWhile (p := Char.isDigit) (l := cs)
    rw [← hsplit]
    exact List.mem_append_right _ this
  case _ => exact absurd h.2 (by simp)

/-- Every character of a whole-string grammar-2 match is a digit or the
dot. -/
lemma chars_of_sec {cs : List Char} (h : isNptSEC cs = true) :
    ∀ c ∈ cs, c.isDigit = true ∨ c = '.' := by
  unfold isNptSEC at h
  rw [Bool.and_eq_true] at h
  intro c hc
  have hsplit := List.takeWhile_append_dropWhile (p := Char.isDigit) (l := cs)
  rw [← hsplit] at hc
  rcases List.mem_append.mp hc with htake | hdrop
  · exact Or.inl (List.mem_takeWhile_imp htake)
  · split at h
    case _ heq => rw [heq] at hdrop; exact absurd hdrop (List.not_mem_nil c)
    case _ heq =>
      rw [heq] at hdrop
      rcases List.mem_cons.mp hdrop with hceq | hds
      · exact Or.inr hceq
      · rcases h.2 with h2
        rw [Bool.and_eq_true] at h2
        exact Or.inl (by
          have := List.all_eq_true.mp h2.2 c hds
          simpa using this)
    case _ => exact absurd h.2 (by simp)

/-- Claim C1, amended: the source regexes search anywhere in the input, and
any digit character alone is already a grammar-2 match; so on ASCII inputs
(the domain on which the ASCII embedding of the Unicode-aware `\d` class is
exact — a non-ASCII decimal digit would instead be captured by the source's
`NPT_SEC` and panic in the `u64` parse) `parse_npt` returns "no value"
precisely on the digit-free ones — in particular on `"not-a-time"` — and the
two grammars are indeed mutually exclusive as whole-string matches. -/
theorem c1_amended :
    (∀ cs : List Char, (∀ c ∈ cs, c.toNat < 128) → (∀ c ∈ cs, c.isDigit = false) →
      parse_npt cs = .ok none) ∧
    (∀ cs : List Char, isNptHHMMSS cs = true → isNptSEC cs = false) ∧
    parse_npt "not-a-time".data = .ok none := by
  refine ⟨?_, ?_, by decide⟩
  · intro cs _ h
    unfold parse_npt
    rw [hhmmss_captures_of_no_digit h, sec_captures_of_no_digit h]
  · intro cs h1
    by_contra h2
    rw [Bool.not_eq_false] at h2
    rcases chars_of_sec h2 ':' (colon_mem_of_hhmmss h1) with hd | hdot
    · exact absurd hd (by decide)
    · exact absurd hdot (by decide)

/-- Claim C1, witness for the amended theorem at a concrete ASCII digit-free
input. -/
theorem c1_amended_witness :
    (∀ c ∈ "npt".data, c.toNat < 128) ∧ (∀ c ∈ "npt".data, c.isDigit = false) ∧
    parse_npt "npt".data = .ok none :=
  ⟨by decide, by decide, c1_amended.1 _ (by decide) (by decide)⟩

/-- A 39-digit fraction: `1` followed by 38 zeros (value `10 ^ 38`). -/
def frac39 : List Char := '1' :: List.replicate 38 '0'

/-- Claim C2, counterexample: for the 39-digit fraction `frac39` the decoder
adds 0 extra milliseconds — `10f32.powi(39)` overflows to infinity, so the
`f32` quotient is zero — while the claim's formula
`floor(1000 * int(frac) / 10 ^ n)` gives 100 milliseconds. -/
theorem c2_counterexample :
    parse_npt_add_frac_sec 0 (some frac39) = .ok 0 ∧
    1000 * natOfDigits frac39 / 10 ^ frac39.length = 100 :=
  ⟨by decide, by decide⟩

/-- Claim C2, amended: the millisecond contribution is computed in 32-bit
float arithmetic; absence of a fraction contributes zero extra milliseconds
for every duration, and the contribution agrees with the claim's floor
formula on the cited examples — fraction `"5"` contributes 500 ms and
fraction `"05"` contributes 50 ms (durations are nanoseconds here). -/
theorem c2_amended :
    (∀ d : ℕ, parse_npt_add_frac_sec d none = .ok d) ∧
    parse_npt_add_frac_sec 0 (some ['5']) = .ok 500000000 ∧
    parse_npt_add_frac_sec 0 (some ['0', '5']) = .ok 50000000 :=
  ⟨fun _ => rfl, by decide, by decide⟩

/-- Claim C5: evaluating `handle_media_thumbnail` at the failing input — a
thumbnail element with a `url` and with `time` a 20-digit seconds run — shows
the process panicking inside the NPT decoder (`parse::<u64>().unwrap()` on a
value above `u64::MAX`) instead of leaving `time` unset without error. -/
theorem c5_thumbnail_time_unwrap_panic :
    handle_media_thumbnail (.mk (some .MediaRSS) "thumbnail"
      [⟨"url", "u"⟩, ⟨"time", "99999999999999999999"⟩] [] (.ok none) (.ok none)) =
    .error (.panic .u64ParseUnwrap) := by decide

/-- A digit run followed by a colon is split exactly at the colon by
`takeWhile`/`dropWhile`. -/
lemma takeWhile_digits_colon (hs t : List Char) (hd : ∀ c ∈ hs, c.isDigit = true) :
    (hs ++ ':' :: t).takeWhile Char.isDigit = hs ∧
    (hs ++ ':' :: t).dropWhile Char.isDigit = ':' :: t := by
  have hcolon : (':').isDigit = false := by decide
  induction hs with
  | nil => simp [List.takeWhile_cons, List.dropWhile_cons, hcolon]
  | cons c cs ih =>
    have hc : c.isDigit = true := hd c (List.mem_cons_self c cs)
    obtain ⟨ih1, ih2⟩ := ih (fun x hx => hd x (List.mem_cons_of_mem c hx))
    constructor
    · simp [List.takeWhile_cons, hc, ih1]
    · simp [List.dropWhile_cons, hc, ih2]

/-- `NPT_HHMMSS` matches a well-formed fraction-free `h:mm:ss` input at its
head, capturing the three groups exactly. -/
lemma hhmmss_match_at_exact (hs : List Char) (m1 m2 s1 s2 : Char)
    (hne : hs ≠ []) (hd : ∀ c ∈ hs, c.isDigit = true)
    (hm1 : m1.isDigit = true) (hm2 : m2.isDigit = true)
    (hs1 : s1.isDigit = true) (hs2 : s2.isDigit = true) :
    npt_hhmmss_match_at (hs ++ ':' :: m1 :: m2 :: ':' :: s1 :: s2 :: []) =
      some ⟨hs, [m1, m2], [s1, s2], none⟩ := by
  obtain ⟨ht, hdp⟩ :=
    takeWhile_digits_colon hs (m1 :: m2 :: ':' :: s1 :: s2 :: []) hd
  simp [npt_hhmmss_match_at, ht, hdp, hne, hm1, hm2, hs1, hs2, fracAt]

/-- A head match is the leftmost match. -/
lemma hhmmss_captures_head {cs : List Char} {caps : HmsCaps} (h0 : cs ≠ [])
    (hm : npt_hhmmss_match_at cs = some caps) :
    npt_hhmmss_captures cs = some caps := by
  cases cs with
  | nil => exact absurd rfl h0
  | cons c rest => simp [npt_hhmmss_captures, hm]

/-- Crude bound on a digit value (enough for the two-digit groups). -/
lemma digitVal_lt (c : Char) : digitVal c < 2 ^ 32 := by
  have h : c.toNat < 2 ^ 32 := c.val.toBitVec.isLt
  have h2 : digitVal c ≤ c.toNat := Nat.sub_le _ _
  omega

/-- `natOfDigits` on a two-character group. -/
lemma natOfDigits_pair (a b : Char) :
    natOfDigits [a, b] = 10 * digitVal a + digitVal b := by
  simp [natOfDigits, List.foldl]

/-- Claim C7, amended: for every fraction-free input `h:mm:ss` of the
claim's grammar whose total `h*3600 + mm*60 + ss` fits in `u64`, the decoded
value is exactly that many seconds (nanoseconds here), and the claim's three
cited examples hold; the counterexample shows the formula cannot survive
hour runs whose value exceeds `u64::MAX`, where the decoder panics. -/
theorem c7_amended :
    (∀ (hs : List Char) (m1 m2 s1 s2 : Char),
      hs ≠ [] → (∀ c ∈ hs, c.isDigit = true) →
      m1.isDigit = true → m2.isDigit = true →
      s1.isDigit = true → s2.isDigit = true →
      natOfDigits hs * 3600 + natOfDigits [m1, m2] * 60 + natOfDigits [s1, s2] < 2 ^ 64 →
      parse_npt (hs ++ ':' :: m1 :: m2 :: ':' :: s1 :: s2 :: []) =
        .ok (some ((natOfDigits hs * 3600 + natOfDigits [m1, m2] * 60 +
          natOfDigits [s1, s2]) * 1000000000))) ∧
    parse_npt "12:05:35".data = .ok (some 43535000000000) ∧
    parse_npt "12:05:35.123".data = .ok (some 43535123000000) ∧
    parse_npt "123.45".data = .ok (some 123450000000) := by
  refine ⟨?_, by decide, by decide, by decide⟩
  intro hs m1 m2 s1 s2 hne hd hm1 hm2 hs1 hs2 hlt
  have hcaps := hhmmss_captures_head (by simp [hne])
    (hhmmss_match_at_exact hs m1 m2 s1 s2 hne hd hm1 hm2 hs1 hs2)
  have hsv : natOfDigits [s1, s2] < 2 ^ 64 := by
    have h1 := digitVal_lt s1
    have h2 := digitVal_lt s2
    rw [natOfDigits_pair]; omega
  have hmv : natOfDigits [m1, m2] < 2 ^ 64 := by
    have h1 := digitVal_lt m1
    have h2 := digitVal_lt m2
    rw [natOfDigits_pair]; omega
  have hhv : natOfDigits hs < 2 ^ 64 := by omega
  have e1 : parseU64unwrap [s1, s2] = .ok (natOfDigits [s1, s2]) := by
    unfold parseU64unwrap; rw [if_pos hsv]
  have e2 : parseU64unwrap [m1, m2] = .ok (natOfDigits [m1, m2]) := by
    unfold parseU64unwrap; rw [if_pos hmv]
  have e3 : parseU64unwrap hs = .ok (natOfDigits hs) := by
    unfold parseU64unwrap; rw [if_pos hhv]
  unfold parse_npt
  rw [hcaps]
  simp only [e1, e2, e3, parse_npt_add_frac_sec, Except.ok.injEq, Option.some.injEq]
  have hb1 := digitVal_lt m1
  have hb2 := digitVal_lt m2
  have hb3 := digitVal_lt s1
  have hb4 := digitVal_lt s2
  rw [natOfDigits_pair, natOfDigits_pair] at hlt ⊢
  omega

/-- Claim C7, counterexample: `"99999999999999999999:00:00"` matches the
claim's `H:MM:SS` grammar, but the decoder panics on the hours unwrap instead
of producing the whole-second total `hours * 3600`. -/
theorem c7_counterexample :
    isNptHHMMSS "99999999999999999999:00:00".data = true ∧
    parse_npt "99999999999999999999:00:00".data = .error .u64ParseUnwrap :=
  ⟨by decide, by decide⟩

/-- Claim C10: `parse_npt` is not total — at the failing input of twenty
nines (a digit run whose value exceeds `u64::MAX`, as the first conjunct
records) the seconds capture's `parse::<u64>().unwrap()` panics rather than
returning a duration or no value. -/
theorem c10_parse_npt_unwrap_panic :
    2 ^ 64 ≤ natOfDigits "99999999999999999999".data ∧
    parse_npt "99999999999999999999".data = .error .u64ParseUnwrap :=
  ⟨by decide, by decide⟩

/-- Claim C7, witness for the amended theorem at the concrete input
`7:00:01`. -/
theorem c7_amended_witness :
    natOfDigits ['7'] * 3600 + natOfDigits ['0', '0'] * 60 + natOfDigits ['0', '1'] < 2 ^ 64 ∧
    parse_npt (['7'] ++ ':' :: '0' :: '0' :: ':' :: '0' :: '1' :: []) =
      .ok (some ((natOfDigits ['7'] * 3600 + natOfDigits ['0', '0'] * 60 +
        natOfDigits ['0', '1']) * 1000000000)) :=
  ⟨by decide, c7_amended.1 ['7'] '0' '0' '0' '1' (by decide) (by decide) (by decide)
    (by decide) (by decide) (by decide) (by decide)⟩

/-- Claim C3: given that the walker's text extraction itself does not fault,
`handle_text` faults exactly in the two claimed cases, with the unknown-MIME
fault taking precedence: a first `type` attribute outside `plain`/`html`
raises `UnknownMimeType` carrying that value; with a valid (or defaulted)
type, absent serialised content raises `MissingContent("text")`; an absent
`type` attribute defaults to `plain`; and with content present the resolved
MIME type is returned on the text record. -/
theorem c3_handle_text (e : Element) (r : Option String)
    (hw : e.children_as_string = .ok r) :
    (typeAttrOf e ≠ "plain" → typeAttrOf e ≠ "html" →
      handle_text e = .error (.err (.parse (.unknownMimeType (typeAttrOf e))))) ∧
    (typeAttrOf e = "plain" → r = none →
      handle_text e = .error (.err (.parse (.missingContent "text")))) ∧
    (typeAttrOf e = "html" → r = none →
      handle_text e = .error (.err (.parse (.missingContent "text")))) ∧
    (∀ s, typeAttrOf e = "plain" → r = some s →
      handle_text e = .ok (some { content := s, content_type := "text/plain" })) ∧
    (∀ s, typeAttrOf e = "html" → r = some s →
      handle_text e = .ok (some { content := s, content_type := "text/html" })) ∧
    (e.attributes.find? (fun a => a.name == "type") = none → typeAttrOf e = "plain") ∧
    (∀ f, handle_text e = .error f →
      f = .err (.parse (.unknownMimeType (typeAttrOf e))) ∨
      f = .err (.parse (.missingContent "text"))) := by
  refine ⟨?_, ?_, ?_, ?_, ?_, ?_, ?_⟩
  · intro h1 h2
    simp [handle_text, h1, h2]
  · intro h1 hr
    subst hr
    simp [handle_text, h1, hw]
  · intro h1 hr
    subst hr
    have hne : typeAttrOf e ≠ "plain" := by rw [h1]; decide
    simp [handle_text, h1, hne, hw]
  · intro s h1 hr
    subst hr
    simp [handle_text, h1, hw]
  · intro s h1 hr
    subst hr
    have hne : typeAttrOf e ≠ "plain" := by rw [h1]; decide
    simp [handle_text, h1, hne, hw]
  · intro h
    simp [typeAttrOf, h]
  · intro f hf
    by_cases h1 : typeAttrOf e = "plain"
    · cases r with
      | none =>
        simp [handle_text, h1, hw] at hf
        exact Or.inr hf.symm
      | some s => simp [handle_text, h1, hw] at hf
    · by_cases h2 : typeAttrOf e = "html"
      · cases r with
        | none =>
          have hne : typeAttrOf e ≠ "plain" := h1
          simp [handle_text, h2, hne, hw] at hf
          exact Or.inr hf.symm
        | some s => simp [handle_text, h2, h1, hw] at hf
      · simp [handle_text, h1, h2] at hf
        exact Or.inl hf.symm

/-- Claim C3, witness: a title element with no `type` attribute and with
serialised content defaults to plain text. -/
theorem c3_handle_text_witness :
    (Element.mk (some NS.MediaRSS) "title" [] [] (.ok (some "hi")) (.ok none)).children_as_string
      = .ok (some "hi") ∧
    handle_text (Element.mk (some NS.MediaRSS) "title" [] [] (.ok (some "hi")) (.ok none)) =
      .ok (some { content := "hi", content_type := "text/plain" }) :=
  ⟨rfl, (c3_handle_text
    (Element.mk (some NS.MediaRSS) "title" [] [] (.ok (some "hi")) (.ok none))
    (some "hi") rfl).2.2.2.1 "hi" rfl rfl⟩

/-- One step of the content-attribute loop changes the `url` field exactly
on an attribute named `url`. -/
lemma content_step_url (c : MediaContent) (a : Attr) :
    (media_content_attr_step c a).url =
      if a.name = "url" then some a.value else c.url := by
  unfold media_content_attr_step
  split
  · next heq => simp [heq]
  · next heq => rw [if_neg (by rw [heq]; decide)]; cases parseMime a.value <;> simp
  · next heq => rw [if_neg (by rw [heq]; decide)]; cases parseU32 a.value <;> simp
  · next heq => rw [if_neg (by rw [heq]; decide)]; cases parseU32 a.value <;> simp
  · next h1 h2 h3 h4 => rw [if_neg h1]

/-- Without a `url` attribute the content-attribute loop leaves `url`
untouched. -/
lemma content_attrs_url_none (attrs : List Attr) (c : MediaContent)
    (h : ∀ a ∈ attrs, a.name ≠ "url") :
    (attrs.foldl media_content_attr_step c).url = c.url := by
  induction attrs generalizing c with
  | nil => rfl
  | cons a rest ih =>
    rw [List.foldl_cons, ih _ (fun x hx => h x (List.mem_cons_of_mem a hx)),
      content_step_url, if_neg (h a (List.mem_cons_self a rest))]

/-- The content-attribute loop never clears a `url` already found. -/
lemma content_attrs_url_mono (attrs : List Attr) (c : MediaContent)
    (h : c.url.isSome = true) :
    (attrs.foldl media_content_attr_step c).url.isSome = true := by
  induction attrs generalizing c with
  | nil => exact h
  | cons a rest ih =>
    rw [List.foldl_cons]
    apply ih
    rw [content_step_url]
    split
    · rfl
    · exact h

/-- With a `url` attribute present the content-attribute loop produces a
record with `url` set. -/
lemma content_attrs_url_some (attrs : List Attr) (c : MediaContent)
    (h : ∃ a ∈ attrs, a.name = "url") :
    (attrs.foldl media_content_attr_step c).url.isSome = true := by
  induction attrs generalizing c with
  | nil => exact absurd h (by simp)
  | cons a rest ih =>
    rw [List.foldl_cons]
    rcases h with ⟨x, hx, hname⟩
    rcases List.mem_cons.mp hx with hxa | hxr
    · subst hxa
      apply content_attrs_url_mono
      rw [content_step_url, if_pos hname]
      rfl
    · exact ih _ ⟨x, hxr, hname⟩

/-- Claim C4: a content element without a `url` attribute leaves the
accumulator entirely unchanged and returns without error; with `url`
present, the handler first runs the MediaRSS children through the dispatcher
against the same accumulator and then overwrites the accumulator's `content`
field with the record built from the attributes. -/
theorem c4_content_frame (e : Element) (m : MediaObject) :
    ((∀ a ∈ e.attributes, a.name ≠ "url") → handle_media_content e m = .ok m) ∧
    ((∃ a ∈ e.attributes, a.name = "url") →
      handle_media_content e m =
        match media_children_into e.children m with
        | .error f => .error f
        | .ok m2 => .ok { m2 with content := some (media_content_attrs e.attributes) }) := by
  cases e with
  | mk ns tag attrs children cas cat =>
    constructor
    · intro h
      have hnone : (media_content_attrs attrs).url = none :=
        content_attrs_url_none attrs MediaContent.new h
      simp only [handle_media_content, media_content_attrs] at hnone ⊢
      rw [hnone]
      rfl
    · intro h
      have hsome : (media_content_attrs attrs).url.isSome = true :=
        content_attrs_url_some attrs MediaContent.new h
      simp only [handle_media_content, media_content_attrs,
        Element.children, Element.attributes] at hsome ⊢
      rw [if_pos hsome]

/-- Claim C4, witness: a content element with `type` and `width` attributes
but no `url` leaves a fresh accumulator unchanged. -/
theorem c4_content_frame_witness :
    (∀ a ∈ [Attr.mk "type" "video/mp4", Attr.mk "width" "5"], a.name ≠ "url") ∧
    handle_media_content
      (.mk (some NS.MediaRSS) "content" [⟨"type", "video/mp4"⟩, ⟨"width", "5"⟩]
        [] (.ok none) (.ok none)) MediaObject.new = .ok MediaObject.new :=
  ⟨by decide, (c4_content_frame _ _).1 (by decide)⟩

/-- Claim C6: the community aggregator never returns "no record" (for any
element, including one with no recognised children); an unparsable
`average` value on a `starRating` child leaves the whole record at its
defaults without a fault; and the claim's valid example populates all four
star fields exactly. -/
theorem c6_community :
    (∀ e : Element, handle_media_community e ≠ .ok none) ∧
    (∀ v : String, parseF64 v = none →
      handle_media_community (.mk (some NS.MediaRSS) "community" []
        [.ok (.mk (some NS.MediaRSS) "starRating" [⟨"average", v⟩] [] (.ok none) (.ok none))]
        (.ok none) (.ok none)) = .ok (some MediaCommunity.new)) ∧
    handle_media_community (.mk (some NS.MediaRSS) "community" []
        [.ok (.mk (some NS.MediaRSS) "starRating"
          [⟨"average", "4.5"⟩, ⟨"count", "10"⟩, ⟨"min", "1"⟩, ⟨"max", "5"⟩]
          [] (.ok none) (.ok none))]
        (.ok none) (.ok none)) =
      .ok (some { stars_avg := .finite (mkRat 9 2), stars_count := 10,
                  stars_min := 1, stars_max := 5 }) := by
  refine ⟨?_, ?_, by decide⟩
  · intro e h
    cases hc : community_children_loop e.children MediaCommunity.new with
    | error f => simp [handle_media_community, hc] at h
    | ok c => simp [handle_media_community, hc] at h
  · intro v hv
    simp [handle_media_community, community_children_loop, starRatingFold,
      Element.ns_and_tag, Element.ns, Element.tag, Element.children,
      Element.attributes, List.foldl, hv, MediaCommunity.new]

/-- Claim C6, witness: the unparsable value `"abc"` leaves the record at its
defaults. -/
theorem c6_community_witness :
    parseF64 "abc" = none ∧
    handle_media_community (.mk (some NS.MediaRSS) "community" []
      [.ok (.mk (some NS.MediaRSS) "starRating" [⟨"average", "abc"⟩] [] (.ok none) (.ok none))]
      (.ok none) (.ok none)) = .ok (some MediaCommunity.new) :=
  ⟨by decide, c6_community.2.1 "abc" (by decide)⟩

/-- A child the group/content loop skips: decoded (not a walker error) and
outside the MediaRSS namespace. -/
def skippableChild : Except PErr Element → Bool
  | .ok el => !(el.ns == some NS.MediaRSS)
  | .error _ => false

/-- The shared child loop is the identity on a list of skippable children. -/
lemma mci_skip (cs : List (Except PErr Element)) (m : MediaObject)
    (h : cs.all skippableChild = true) : media_children_into cs m = .ok m := by
  induction cs with
  | nil => simp [media_children_into]
  | cons c rest ih =>
    rw [List.all_cons, Bool.and_eq_true] at h
    cases c with
    | error pe => exact absurd h.1 (by simp [skippableChild])
    | ok el =>
      have hns : ¬el.ns = some NS.MediaRSS := by
        have h1 := h.1
        simp [skippableChild] at h1
        exact h1
      simp [media_children_into, hns, ih h.2]

/-- The shared child loop propagates the first walker error (after any
skippable prefix) as a hard fault. -/
lemma mci_err (pre : List (Except PErr Element)) (pe : PErr)
    (rest : List (Except PErr Element)) (m : MediaObject)
    (h : pre.all skippableChild = true) :
    media_children_into (pre ++ .error pe :: rest) m = .error (.err pe) := by
  induction pre with
  | nil => simp [media_children_into]
  | cons c cs ih =>
    rw [List.all_cons, Bool.and_eq_true] at h
    cases c with
    | error q => exact absurd h.1 (by simp [skippableChild])
    | ok el =>
      have hns : ¬el.ns = some NS.MediaRSS := by
        have h1 := h.1
        simp [skippableChild] at h1
        exact h1
      simp [media_children_into, hns, ih h.2]

/-- Claim C8: `handle_media_group` never yields "no object"; a group whose
children all decode and sit outside the MediaRSS namespace yields the
all-default `MediaObject`; and a walker decode failure on any child (after a
skippable prefix) propagates as a hard error. -/
theorem c8_group (e : Element) :
    handle_media_group e ≠ .ok none ∧
    (e.children.all skippableChild = true →
      handle_media_group e = .ok (some MediaObject.new)) ∧
    (∀ pre pe rest, e.children = pre ++ .error pe :: rest →
      pre.all skippableChild = true → handle_media_group e = .error (.err pe)) := by
  refine ⟨?_, ?_, ?_⟩
  · intro h
    cases hc : media_children_into e.children MediaObject.new with
    | error f => simp [handle_media_group, hc] at h
    | ok m => simp [handle_media_group, hc] at h
  · intro h
    simp [handle_media_group, mci_skip _ _ h]
  · intro pre pe rest hch h
    simp [handle_media_group, hch, mci_err _ _ _ _ h]

/-- Claim C8, witness: a group with one decoded non-MediaRSS child yields
the all-default object. -/
theorem c8_group_witness :
    ([Except.ok (Element.mk (some NS.Atom) "x" [] [] (.ok none) (.ok none))].all
      skippableChild = true) ∧
    handle_media_group (.mk (some NS.MediaRSS) "group" []
      [.ok (.mk (some NS.Atom) "x" [] [] (.ok none) (.ok none))] (.ok none) (.ok none)) =
      .ok (some MediaObject.new) :=
  ⟨by decide, (c8_group _).2.1 (by decide)⟩

/-- The seven (MediaRSS, tag) pairs the dispatcher recognises. -/
def recognizedTag (t : String) : Bool :=
  t == "title" || t == "content" || t == "thumbnail" || t == "description" ||
  t == "community" || t == "credit" || t == "text"

/-- Claim C9: on any element whose (namespace, tag) pair is not one of the
seven recognised MediaRSS pairs, the dispatcher returns success and leaves
the accumulator untouched. -/
theorem c9_dispatch_noop (e : Element) (m : MediaObject)
    (h : e.ns ≠ some NS.MediaRSS ∨ recognizedTag e.tag = false) :
    handle_media_element e m = .ok m := by
  simp only [handle_media_element, Element.ns_and_tag]
  split
  all_goals try rfl
  all_goals
    next heq =>
      exfalso
      rw [Prod.mk.injEq] at heq
      rcases h with h | h
      · exact h heq.1
      · rw [heq.2] at h; simp [recognizedTag] at h

/-- Claim C9, witness: a MediaRSS element with the unrecognised tag
`foobar` is a no-op on a fresh accumulator. -/
theorem c9_dispatch_noop_witness :
    ((Element.mk (some NS.MediaRSS) "foobar" [] [] (.ok none) (.ok none)).ns ≠ some NS.MediaRSS ∨
      recognizedTag (Element.mk (some NS.MediaRSS) "foobar" [] [] (.ok none) (.ok none)).tag
        = false) ∧
    handle_media_element (.mk (some NS.MediaRSS) "foobar" [] [] (.ok none) (.ok none))
      MediaObject.new = .ok MediaObject.new :=
  ⟨Or.inr (by decide), c9_dispatch_noop _ _ (Or.inr (by decide))⟩

end FeedRS
